import Mathlib

/-!
Verification development for the aws-runas repository.

Each Go package that the spec covers is embedded as a Lean namespace:
* `SdkConfig` — `config/chain_loader.go` (the chain-of-responsibility loader);
* `LibConfig` — `lib/config/shared_cfg_handler.go` (the shared-config handler);
* `Lib` — the assume-role provider of package `lib`;
* `Metadata` — the linux interface-address management of package `metadata`;
* `External` — the PKCE code generator of package `client/external`;
* `Credentials` — the OIDC identity token of package `credentials`.

Machine integers are embedded as `Nat` with explicit `% 2 ^ 32` where the Go
code relies on 32-bit wraparound (SHA-256); fallible Go functions returning
`error` are embedded as `Except String`.
-/

namespace AwsRunas

namespace SdkConfig

/-- Modelled from the spec: the `AwsConfig` record of package `config` is not
under `src/`; the spec's Profile data model gives its fields (region,
source-profile name, role ARN, MFA serial, external ID, federation endpoint).
Unset fields are the empty string. -/
structure AwsConfig where
  Region : String := ""
  RoleArn : String := ""
  SrcProfile : String := ""
  MfaSerial : String := ""
  ExternalId : String := ""
  SamlUrl : String := ""
deriving Repr, DecidableEq

/-- Modelled from the spec: `AwsConfig.MergeIn` is not under `src/`; per the
spec, merging is field-wise and a later source's non-empty field overwrites
the earlier value, while empty fields leave the accumulated value intact. -/
def AwsConfig.MergeIn (c other : AwsConfig) : AwsConfig where
  Region := if other.Region ≠ "" then other.Region else c.Region
  RoleArn := if other.RoleArn ≠ "" then other.RoleArn else c.RoleArn
  SrcProfile := if other.SrcProfile ≠ "" then other.SrcProfile else c.SrcProfile
  MfaSerial := if other.MfaSerial ≠ "" then other.MfaSerial else c.MfaSerial
  ExternalId := if other.ExternalId ≠ "" then other.ExternalId else c.ExternalId
  SamlUrl := if other.SamlUrl ≠ "" then other.SamlUrl else c.SamlUrl

/-- Modelled from the spec: the `AwsCredentials` record of package `config` is
not under `src/`; the spec's Credentials data model gives its fields (access
key id, secret key, session token, expiration timestamp). -/
structure AwsCredentials where
  AccessKeyId : String := ""
  SecretKey : String := ""
  SessionToken : String := ""
  Expiration : Nat := 0
deriving Repr, DecidableEq

/-- Modelled from the spec: `AwsCredentials.MergeIn`, field-wise merge where a
later source's set field overwrites the earlier value. -/
def AwsCredentials.MergeIn (c other : AwsCredentials) : AwsCredentials where
  AccessKeyId := if other.AccessKeyId ≠ "" then other.AccessKeyId else c.AccessKeyId
  SecretKey := if other.SecretKey ≠ "" then other.SecretKey else c.SecretKey
  SessionToken := if other.SessionToken ≠ "" then other.SessionToken else c.SessionToken
  Expiration := if other.Expiration ≠ 0 then other.Expiration else c.Expiration

/-- A `Loader` of package `config`: its `Config` and `Credentials` lookups,
each mapping a profile name to a result or an error. -/
structure Loader where
  ConfigFn : String → Except String AwsConfig
  CredentialsFn : String → Except String AwsCredentials

/-- The accumulation loop of `chainLoader.Config`: each loader in order is
consulted; an error is logged and skipped, a success is merged with
`AwsConfig.MergeIn` into the accumulator. -/
def chainConfigLoop (loaders : List Loader) (profile : String) (c : AwsConfig) : AwsConfig :=
  loaders.foldl (fun acc ldr =>
    match ldr.ConfigFn profile with
    | .error _ => acc
    | .ok cf => acc.MergeIn cf) c

/-- `chainLoader.Config` (config/chain_loader.go:18-31): starts from a fresh
zero-valued `AwsConfig`, folds the loaders, and always returns `.ok`. -/
def chainLoaderConfig (loaders : List Loader) (profile : String) : Except String AwsConfig :=
  .ok (chainConfigLoop loaders profile {})

/-- The accumulation loop of `chainLoader.Credentials`. -/
def chainCredentialsLoop (loaders : List Loader) (profile : String) (c : AwsCredentials) :
    AwsCredentials :=
  loaders.foldl (fun acc ldr =>
    match ldr.CredentialsFn profile with
    | .error _ => acc
    | .ok cr => acc.MergeIn cr) c

/-- `chainLoader.Credentials` (config/chain_loader.go:38-51): starts from a
fresh zero-valued `AwsCredentials`, folds the loaders, and always returns
`.ok`. -/
def chainLoaderCredentials (loaders : List Loader) (profile : String) :
    Except String AwsCredentials :=
  .ok (chainCredentialsLoop loaders profile {})

theorem chainConfigLoop_error_skip (ldr : Loader) (rest : List Loader) (p : String)
    (c : AwsConfig) (e : String) (h : ldr.ConfigFn p = .error e) :
    chainConfigLoop (ldr :: rest) p c = chainConfigLoop rest p c := by
  simp [chainConfigLoop, h]

theorem chainConfigLoop_ok_merge (ldr : Loader) (rest : List Loader) (p : String)
    (c cf : AwsConfig) (h : ldr.ConfigFn p = .ok cf) :
    chainConfigLoop (ldr :: rest) p c = chainConfigLoop rest p (c.MergeIn cf) := by
  simp [chainConfigLoop, h]

theorem chainCredentialsLoop_error_skip (ldr : Loader) (rest : List Loader) (p : String)
    (c : AwsCredentials) (e : String) (h : ldr.CredentialsFn p = .error e) :
    chainCredentialsLoop (ldr :: rest) p c = chainCredentialsLoop rest p c := by
  simp [chainCredentialsLoop, h]

theorem chainCredentialsLoop_ok_merge (ldr : Loader) (rest : List Loader) (p : String)
    (c cr : AwsCredentials) (h : ldr.CredentialsFn p = .ok cr) :
    chainCredentialsLoop (ldr :: rest) p c = chainCredentialsLoop rest p (c.MergeIn cr) := by
  simp [chainCredentialsLoop, h]

end SdkConfig

namespace LibConfig

/-- The base fields of the `AwsConfig` record of package `lib/config`: the
fields that `ini` section mapping (`MapTo`) fills, plus the profile `Name`. -/
structure AwsConfigBase where
  Name : String := ""
  Region : String := ""
  RoleArn : String := ""
  SourceProfile : String := ""
  MfaSerial : String := ""
deriving Repr, DecidableEq

/-- The `AwsConfig` record of package `lib/config`: base fields plus the
nested `sourceProfile` and `defaultProfile` references that
`SharedCfgConfigHandler` fills (each nested record is only ever filled one
level deep by the handler). -/
structure AwsConfig extends AwsConfigBase where
  sourceProfile : Option AwsConfigBase := none
  defaultProfile : Option AwsConfigBase := none
deriving Repr, DecidableEq

/-- An ini file: a list of named sections, each section modelled as the
`AwsConfigBase` fields its keys map to (the ini library is a black-box
section reader per the spec). -/
structure IniFile where
  sections : List (String × AwsConfigBase)

/-- Section lookup in an ini file by exact section name. -/
def IniFile.GetSection (f : IniFile) (name : String) : Option AwsConfigBase :=
  f.sections.lookup name

/-- The state of `SharedCfgConfigHandler` (lib/config/shared_cfg_handler.go):
config-file path, credentials-file path, active profile, default profile. -/
structure Handler where
  confFile : String
  credFile : String
  profile : String := ""
  defProfile : String
deriving Repr, DecidableEq

/-- `NewSharedCfgConfigHandler`: SDK default file locations and default
profile name; the active profile starts unset. -/
def NewSharedCfgConfigHandler : Handler :=
  { confFile := "~/.aws/config", credFile := "~/.aws/credentials", defProfile := "default" }

/-- `SharedCfgConfigHandler.Profile` (shared_cfg_handler.go:72-74): explicitly
set the profile to load. -/
def Handler.Profile (h : Handler) (p : String) : Handler :=
  { h with profile := p }

/-- The four environment variables `readEnv` consults, each possibly unset. -/
structure Env where
  AWS_CONFIG_FILE : Option String := none
  AWS_SHARED_CREDENTIALS_FILE : Option String := none
  AWS_DEFAULT_PROFILE : Option String := none
  AWS_PROFILE : Option String := none

/-- `SharedCfgConfigHandler.readEnv` (shared_cfg_handler.go:133-153): each
variable that is set in the environment overwrites the corresponding handler
field, `AWS_PROFILE` overwriting the active profile last. -/
def readEnv (h : Handler) (env : Env) : Handler :=
  let h1 := match env.AWS_CONFIG_FILE with
    | some v => { h with confFile := v }
    | none => h
  let h2 := match env.AWS_SHARED_CREDENTIALS_FILE with
    | some v => { h1 with credFile := v }
    | none => h1
  let h3 := match env.AWS_DEFAULT_PROFILE with
    | some v => { h2 with defProfile := v }
    | none => h2
  match env.AWS_PROFILE with
  | some v => { h3 with profile := v }
  | none => h3

/-- Observable side effects of a `Config` call: reading the environment and
loading a configuration file from a path. -/
inductive Effect where
  | envRead : Effect
  | loadFile : String → Effect
deriving Repr, DecidableEq

/-- `SharedCfgConfigHandler.mapConfig` (shared_cfg_handler.go:113-131): look
the section up first under the bare profile name, then under
`profile <name>`; on success the section's fields are mapped and the record's
`Name` is set to the profile name. -/
def mapConfig (p : String) (f : IniFile) : Except String AwsConfigBase :=
  match f.GetSection p with
  | some s => .ok { s with Name := p }
  | none =>
    match f.GetSection ("profile " ++ p) with
    | some s => .ok { s with Name := p }
    | none => .error ("section not found: " ++ p)

/-- `SharedCfgConfigHandler.loadProfile` (shared_cfg_handler.go:76-111): load
the ini file from the handler's config path; map the default section (errors
only logged, leaving a zero-valued default profile); fall back to the default
profile name when the active profile is unset; map the active profile's
section (error returned); when the mapped profile carries both a
source-profile name and a role ARN, also map the source profile's section;
finally set the result's `Name` to the active profile. The file system is
passed as a map from paths to ini files. -/
def loadProfile (h : Handler) (fs : String → Option IniFile) :
    Handler × Except String AwsConfig :=
  match fs h.confFile with
  | none => (h, .error "unable to load config file")
  | some f =>
    let dp : AwsConfigBase :=
      match mapConfig h.defProfile f with
      | .ok s => s
      | .error _ => {}
    let h1 := if h.profile.length < 1 then { h with profile := h.defProfile } else h
    match mapConfig h1.profile f with
    | .error e => (h1, .error e)
    | .ok mapped =>
      let c1 : AwsConfig :=
        { toAwsConfigBase := mapped, sourceProfile := none, defaultProfile := some dp }
      if c1.SourceProfile ≠ "" ∧ c1.RoleArn ≠ "" then
        match mapConfig c1.SourceProfile f with
        | .error e => (h1, .error e)
        | .ok sp =>
          (h1, .ok { c1 with sourceProfile := some sp,
                             toAwsConfigBase := { mapped with Name := h1.profile } })
      else
        (h1, .ok { c1 with toAwsConfigBase := { mapped with Name := h1.profile } })

/-- `SharedCfgConfigHandler.Config` (shared_cfg_handler.go:49-68): a nil
config returns immediately with no error and no side effect; otherwise a
non-empty `c.Name` is installed via `Profile`, then `readEnv` runs (possibly
overwriting the active profile from `AWS_PROFILE`), then `loadProfile` runs,
and finally a present source profile has its `Name` set from
`c.SourceProfile`. Returns the updated handler, the updated config, the
error, and the list of performed effects. -/
def Config (h : Handler) (c : Option AwsConfig) (env : Env) (fs : String → Option IniFile) :
    Handler × Option AwsConfig × Option String × List Effect :=
  match c with
  | none => (h, none, none, [])
  | some c0 =>
    let h1 := if c0.Name.length > 0 then h.Profile c0.Name else h
    let h2 := readEnv h1 env
    match loadProfile h2 fs with
    | (h3, .error e) => (h3, some c0, some e, [.envRead, .loadFile h2.confFile])
    | (h3, .ok c1) =>
      let c2 :=
        match c1.sourceProfile with
        | some sp => { c1 with sourceProfile := some { sp with Name := c1.SourceProfile } }
        | none => c1
      (h3, some c2, none, [.envRead, .loadFile h2.confFile])

/-- A concrete ini file with two profile sections, used to evaluate `Config`
at a concrete input. -/
def demoIni : IniFile :=
  ⟨[("dev", { Region := "us-west-1" }), ("prod", { Region := "eu-west-1" })]⟩

/-- A concrete one-file file system holding `demoIni` at the handler's
default config path. -/
def demoFs : String → Option IniFile :=
  fun p => if p = "~/.aws/config" then some demoIni else none

end LibConfig

namespace Lib

/-- Modelled from the spec: the default assume-role session duration in whole
seconds (one hour), matching `TestAssumeRoleProvider_ValidateDuration`. -/
def ASSUME_ROLE_DEFAULT_DURATION : Nat := 3600

/-- Modelled from the spec: the minimum assume-role session duration in whole
seconds (fifteen minutes); the test clamps a five-minute request up to it. -/
def ASSUME_ROLE_MIN_DURATION : Nat := 900

/-- Modelled from the spec: the maximum assume-role session duration in whole
seconds (twelve hours); the test clamps a 72-hour request down to it. -/
def ASSUME_ROLE_MAX_DURATION : Nat := 43200

/-- Modelled from the spec: `assumeRoleProvider.validateDuration` is not under
`src/` (only its test is); per the spec it returns the default duration when
the request is zero, clamps up to the minimum when below it, clamps down to
the maximum when above it, and otherwise returns the request unchanged, all
in whole seconds. -/
def validateDuration (d : Nat) : Nat :=
  if d = 0 then ASSUME_ROLE_DEFAULT_DURATION
  else if d < ASSUME_ROLE_MIN_DURATION then ASSUME_ROLE_MIN_DURATION
  else if d > ASSUME_ROLE_MAX_DURATION then ASSUME_ROLE_MAX_DURATION
  else d

/-- Modelled from the spec: the profile record handed to the assume-role
provider (name, region, role ARN). -/
structure AWSProfile where
  Name : String := ""
  Region : String := ""
  RoleArn : String := ""
deriving Repr, DecidableEq

/-- Modelled from the spec: the options record of the cached credentials
provider; zero-valued when the caller passes nil. -/
structure CachedCredentialsProviderOptions where
  LogLevel : Nat := 0
  CachePath : String := ""
deriving Repr, DecidableEq

/-- The constructed assume-role provider: profile identity plus options. -/
structure AssumeRoleProvider where
  profile : AWSProfile
  opts : CachedCredentialsProviderOptions
deriving Repr, DecidableEq

/-- Modelled from the spec: `NewAssumeRoleProvider` is not under `src/` (only
its test is); per the spec a nil profile is a programmer-error precondition
that fails loudly (the Go code panics, embedded as a distinguished error),
while any non-nil profile constructs the provider, nil options defaulting to
the zero-valued options record. -/
def NewAssumeRoleProvider (profile : Option AWSProfile)
    (opts : Option CachedCredentialsProviderOptions) : Except String AssumeRoleProvider :=
  match profile with
  | none => .error "panic: nil profile"
  | some p => .ok { profile := p, opts := opts.getD {} }

end Lib

namespace Metadata

/-- The well-known EC2 metadata service address. -/
def DefaultEc2ImdsAddr : String := "169.254.169.254"

/-- The CIDR form of the metadata address used by the `ip address` commands. -/
def DefaultEc2ImdsCidr : String := "169.254.169.254/22"

/-- A network interface: its name and the addresses it currently holds. -/
structure NetInterface where
  Name : String
  addrs : List String
deriving Repr, DecidableEq

/-- Modelled from the spec: `findInterfaceByAddress` is not under `src/`; per
the spec it locates which interface currently holds the given address, and
reports an interface-not-found error when none does. -/
def findInterfaceByAddress (ifaces : List NetInterface) (addr : String) :
    Except String NetInterface :=
  match ifaces.find? (fun i => i.addrs.contains addr) with
  | some i => .ok i
  | none => .error ("no interface found for address " ++ addr)

/-- `addAddress` (linux variant, in src): builds the
`ip address add <cidr> dev <iface>` command and hands it to `doCommand`. The
command runner is passed explicitly and the issued commands are returned
alongside the result. -/
def addAddress (run : List String → Except String Unit) (iface : NetInterface)
    (cidrAddr : String) : Except String Unit × List (List String) :=
  let cmd := ["ip", "address", "add", cidrAddr, "dev", iface.Name]
  (run cmd, [cmd])

/-- `removeAddress` (linux variant, in src): locates the interface holding
`DefaultEc2ImdsAddr`; a lookup error is returned with no command issued;
otherwise `ip address del <cidr> dev <iface>` is issued against the found
interface. -/
def removeAddress (run : List String → Except String Unit) (ifaces : List NetInterface) :
    Except String Unit × List (List String) :=
  match findInterfaceByAddress ifaces DefaultEc2ImdsAddr with
  | .error e => (.error e, [])
  | .ok iface =>
    let cmd := ["ip", "address", "del", DefaultEc2ImdsCidr, "dev", iface.Name]
    (run cmd, [cmd])

end Metadata

namespace B64

/-- The base64url alphabet (RFC 4648 URL-safe, used by Go's
`base64.RawURLEncoding`); the raw encoding emits no `=` padding. -/
def alphabet : List Char :=
  "ABCDEFGHIJKLMNOPQRSTUVWXYZabcdefghijklmnopqrstuvwxyz0123456789-_".data

/-- The alphabet character for a 6-bit value. -/
def b64Char (v : Nat) : Char := alphabet.getD v 'A'

/-- Unpadded base64url encoding of a byte list: groups of three bytes become
four alphabet characters; a two-byte tail becomes three characters and a
one-byte tail two characters, never emitting padding. -/
def encode : List Nat → List Char
  | [] => []
  | [b1] => [b64Char (b1 / 4), b64Char (b1 % 4 * 16)]
  | [b1, b2] => [b64Char (b1 / 4), b64Char (b1 % 4 * 16 + b2 / 16), b64Char (b2 % 16 * 4)]
  | b1 :: b2 :: b3 :: rest =>
      b64Char (b1 / 4) :: b64Char (b1 % 4 * 16 + b2 / 16) ::
        b64Char (b2 % 16 * 4 + b3 / 64) :: b64Char (b3 % 64) :: encode rest

theorem encode_length (bs : List Nat) : (encode bs).length = (4 * bs.length + 2) / 3 := by
  induction bs using encode.induct with
  | case1 => simp [encode]
  | case2 b1 => simp [encode]
  | case3 b1 b2 => simp [encode]
  | case4 b1 b2 b3 rest ih =>
    simp only [encode, List.length_cons, ih]
    omega

theorem b64Char_ne_pad : ∀ v : Nat, v < 64 → b64Char v ≠ '=' := by decide

theorem encode_ne_pad (bs : List Nat) (hb : ∀ b ∈ bs, b < 256) :
    ∀ c ∈ encode bs, c ≠ '=' := by
  induction bs using encode.induct with
  | case1 => simp [encode]
  | case2 b1 =>
    have h1 : b1 < 256 := hb b1 (by simp)
    intro c hc
    simp only [encode, List.mem_cons, List.mem_singleton, List.not_mem_nil, or_false] at hc
    rcases hc with rfl | rfl <;> exact b64Char_ne_pad _ (by omega)
  | case3 b1 b2 =>
    have h1 : b1 < 256 := hb b1 (by simp)
    have h2 : b2 < 256 := hb b2 (by simp)
    intro c hc
    simp only [encode, List.mem_cons, List.mem_singleton, List.not_mem_nil, or_false] at hc
    rcases hc with rfl | rfl | rfl <;> exact b64Char_ne_pad _ (by omega)
  | case4 b1 b2 b3 rest ih =>
    have h1 : b1 < 256 := hb b1 (by simp)
    have h2 : b2 < 256 := hb b2 (by simp)
    have h3 : b3 < 256 := hb b3 (by simp)
    have hrest : ∀ b ∈ rest, b < 256 := fun b hbm => hb b (by simp [hbm])
    intro c hc
    simp only [encode, List.mem_cons] at hc
    rcases hc with rfl | rfl | rfl | rfl | hc
    · exact b64Char_ne_pad _ (by omega)
    · exact b64Char_ne_pad _ (by omega)
    · exact b64Char_ne_pad _ (by omega)
    · exact b64Char_ne_pad _ (by omega)
    · exact ih hrest c hc

end B64

namespace Sha256

/-- The 32-bit modulus; SHA-256 word arithmetic wraps at this value. -/
def M32 : Nat := 4294967296

/-- Right rotation of a 32-bit word by `n` bits. -/
def rotr (n x : Nat) : Nat := (x / 2 ^ n + x % 2 ^ n * 2 ^ (32 - n)) % M32

/-- Logical right shift of a 32-bit word by `n` bits. -/
def shr (n x : Nat) : Nat := x / 2 ^ n

/-- The SHA-256 choice function. -/
def ch (x y z : Nat) : Nat := (x &&& y) ^^^ ((x ^^^ (M32 - 1)) &&& z)

/-- The SHA-256 majority function. -/
def maj (x y z : Nat) : Nat := (x &&& y) ^^^ (x &&& z) ^^^ (y &&& z)

def bigSigma0 (x : Nat) : Nat := rotr 2 x ^^^ rotr 13 x ^^^ rotr 22 x

def bigSigma1 (x : Nat) : Nat := rotr 6 x ^^^ rotr 11 x ^^^ rotr 25 x

def smallSigma0 (x : Nat) : Nat := rotr 7 x ^^^ rotr 18 x ^^^ shr 3 x

def smallSigma1 (x : Nat) : Nat := rotr 17 x ^^^ rotr 19 x ^^^ shr 10 x

/-- The 64 SHA-256 round constants (fractional parts of the cube roots of the
first 64 primes), written in decimal. -/
def K : List Nat :=
  [1116352408, 1899447441, 3049323471, 3921009573, 961987163, 1508970993, 2453635748,
   2870763221, 3624381080, 310598401, 607225278, 1426881987, 1925078388, 2162078206,
   2614888103, 3248222580, 3835390401, 4022224774, 264347078, 604807628, 770255983,
   1249150122, 1555081692, 1996064986, 2554220882, 2821834349, 2952996808, 3210313671,
   3336571891, 3584528711, 113926993, 338241895, 666307205, 773529912, 1294757372,
   1396182291, 1695183700, 1986661051, 2177026350, 2456956037, 2730485921, 2820302411,
   3259730800, 3345764771, 3516065817, 3600352804, 4094571909, 275423344, 430227734,
   506948616, 659060556, 883997877, 958139571, 1322822218, 1537002063, 1747873779,
   1955562222, 2024104815, 2227730452, 2361852424, 2428436474, 2756734187, 3204031479,
   3329325298]

/-- The initial SHA-256 hash state (fractional parts of the square roots of
the first 8 primes), written in decimal. -/
def initH : List Nat :=
  [1779033703, 3144134277, 1013904242, 2773480762, 1359893119, 2600822924, 528734635,
   1541459225]

/-- SHA-256 message padding: append `0x80`, zero bytes up to 56 mod 64, then
the bit length as eight big-endian bytes. -/
def padBytes (msg : List Nat) : List Nat :=
  let len := msg.length
  let k := (64 - (len + 9) % 64) % 64
  let bitLen := len * 8
  msg ++ [0x80] ++ List.replicate k 0 ++
    [bitLen / 2 ^ 56 % 256, bitLen / 2 ^ 48 % 256, bitLen / 2 ^ 40 % 256,
     bitLen / 2 ^ 32 % 256, bitLen / 2 ^ 24 % 256, bitLen / 2 ^ 16 % 256,
     bitLen / 2 ^ 8 % 256, bitLen % 256]

/-- Big-endian assembly of bytes into 32-bit words. -/
def toWords : List Nat → List Nat
  | b1 :: b2 :: b3 :: b4 :: rest =>
      (b1 * 2 ^ 24 + b2 * 2 ^ 16 + b3 * 2 ^ 8 + b4) :: toWords rest
  | _ => []

/-- Split a byte list into 64-byte blocks. -/
def chunks64 (bs : List Nat) : List (List Nat) :=
  if h : bs = [] then []
  else bs.take 64 :: chunks64 (bs.drop 64)
termination_by bs.length
decreasing_by
  simp only [List.length_drop]
  have : 0 < bs.length := List.length_pos.mpr h
  omega

/-- Extend sixteen message words to the 64-word schedule. -/
def msgSchedule (ws : List Nat) : List Nat :=
  (List.range 48).foldl (fun w i =>
    w ++ [(w.getD i 0 + smallSigma0 (w.getD (i + 1) 0) + w.getD (i + 9) 0 +
      smallSigma1 (w.getD (i + 14) 0)) % M32]) ws

/-- One round of the SHA-256 compression function on the eight-word working
state. -/
def roundStep (w : List Nat) (s : List Nat) (t : Nat) : List Nat :=
  match s with
  | [a, b, c, d, e, f, g, hh] =>
    let t1 := (hh + bigSigma1 e + ch e f g + K.getD t 0 + w.getD t 0) % M32
    let t2 := (bigSigma0 a + maj a b c) % M32
    [(t1 + t2) % M32, a, b, c, (d + t1) % M32, e, f, g]
  | _ => s

/-- Compress one 64-byte block into the hash state. -/
def compressBlock (hv : List Nat) (block : List Nat) : List Nat :=
  let w := msgSchedule (toWords block)
  let s := (List.range 64).foldl (roundStep w) hv
  match hv, s with
  | [h0, h1, h2, h3, h4, h5, h6, h7], [a, b, c, d, e, f, g, hh] =>
    [(h0 + a) % M32, (h1 + b) % M32, (h2 + c) % M32, (h3 + d) % M32, (h4 + e) % M32,
     (h5 + f) % M32, (h6 + g) % M32, (h7 + hh) % M32]
  | _, _ => hv

/-- Serialization of a 32-bit word into four big-endian bytes. -/
def wordBytes (w : Nat) : List Nat :=
  [w / 2 ^ 24 % 256, w / 2 ^ 16 % 256, w / 2 ^ 8 % 256, w % 256]

/-- SHA-256 of a byte list: pad, compress each block, serialize the final
eight words big-endian. -/
def sha256 (msg : List Nat) : List Nat :=
  (((chunks64 (padBytes msg)).foldl compressBlock initH).map wordBytes).flatten

theorem sha256_bytes_lt (msg : List Nat) : ∀ b ∈ sha256 msg, b < 256 := by
  intro b hb
  simp only [sha256, List.mem_flatten, List.mem_map] at hb
  obtain ⟨l, ⟨w, _, rfl⟩, hbl⟩ := hb
  simp only [wordBytes, List.mem_cons, List.mem_singleton, List.not_mem_nil, or_false] at hbl
  rcases hbl with rfl | rfl | rfl | rfl <;> omega

end Sha256

namespace External

/-- The `pkceCode` record of package `client/external`: the verifier and the
challenge, both immutable after generation. -/
structure PkceCode where
  verifier : String
  challenge : String
deriving Repr, DecidableEq

/-- Bytes of an ASCII string, as Go's `[]byte(s)` on the verifier. -/
def strBytes (s : String) : List Nat := s.data.map Char.toNat

/-- Modelled from the spec: `newPkceCode` is not under `src/` (only its test
is); per the spec it draws at least 32 bytes of secure randomness (passed in
here, the Go error case being a failed randomness source), base64url-encodes
them without padding into the verifier, and base64url-encodes without padding
the SHA-256 of the verifier's bytes into the challenge. -/
def newPkceCode (rnd : List Nat) : PkceCode :=
  let v : String := ⟨B64.encode rnd⟩
  { verifier := v, challenge := ⟨B64.encode (Sha256.sha256 (strBytes v))⟩ }

end External

namespace Credentials

/-- The opening-brace character, written by code point. -/
def lbrace : Char := Char.ofNat 123

/-- The closing-brace character, written by code point. -/
def rbrace : Char := Char.ofNat 125

/-- The double-quote character, written by code point. -/
def quoteChar : Char := Char.ofNat 34

/-- The backslash character, written by code point. -/
def backslashChar : Char := Char.ofNat 92

/-- Split a character list on a separator, keeping empty segments, as Go's
`strings.Split`. -/
def splitOnChar (sep : Char) : List Char → List (List Char)
  | [] => [[]]
  | c :: rest =>
    let r := splitOnChar sep rest
    if c = sep then [] :: r
    else
      match r with
      | [] => [[c]]
      | hd :: tl => (c :: hd) :: tl

/-- The 6-bit value of a base64url alphabet character, `none` outside the
alphabet. -/
def b64Val (c : Char) : Option Nat :=
  if 65 ≤ c.toNat ∧ c.toNat ≤ 90 then some (c.toNat - 65)
  else if 97 ≤ c.toNat ∧ c.toNat ≤ 122 then some (c.toNat - 97 + 26)
  else if 48 ≤ c.toNat ∧ c.toNat ≤ 57 then some (c.toNat - 48 + 52)
  else if c = '-' then some 62
  else if c = '_' then some 63
  else none

/-- Unpadded base64url decoding: four characters yield three bytes, a
three-character tail two bytes, a two-character tail one byte; a length of
one more than a multiple of four, or any character outside the alphabet, is
a decode error. -/
def decodeB64 : List Char → Option (List Nat)
  | [] => some []
  | [_] => none
  | [c1, c2] => do
      let v1 ← b64Val c1
      let v2 ← b64Val c2
      pure [v1 * 4 + v2 / 16]
  | [c1, c2, c3] => do
      let v1 ← b64Val c1
      let v2 ← b64Val c2
      let v3 ← b64Val c3
      pure [v1 * 4 + v2 / 16, v2 % 16 * 16 + v3 / 4]
  | c1 :: c2 :: c3 :: c4 :: rest => do
      let v1 ← b64Val c1
      let v2 ← b64Val c2
      let v3 ← b64Val c3
      let v4 ← b64Val c4
      let bs ← decodeB64 rest
      pure ((v1 * 4 + v2 / 16) :: (v2 % 16 * 16 + v3 / 4) :: (v3 % 4 * 64 + v4) :: bs)

/-- A JSON value as far as the expiration claim is concerned: a number or a
string (any other value shape is treated as malformed by the model). -/
inductive JsonVal where
  | num : Int → JsonVal
  | str : List Char → JsonVal
deriving Repr, DecidableEq

/-- Drop JSON whitespace. -/
def skipWs (cs : List Char) : List Char :=
  cs.dropWhile (fun c => decide (c = ' ' ∨ c = '\t' ∨ c = '\n' ∨ c = '\r'))

/-- Scan a JSON string body up to the closing quote; escape sequences are
treated as malformed by the model. -/
def scanStr : List Char → Option (List Char × List Char)
  | [] => none
  | c :: rest =>
    if c = quoteChar then some ([], rest)
    else if c = backslashChar then none
    else
      match scanStr rest with
      | some (s, r) => some (c :: s, r)
      | none => none

def isDigit (c : Char) : Bool := decide (48 ≤ c.toNat ∧ c.toNat ≤ 57)

def digitsToNat (ds : List Char) : Nat :=
  ds.foldl (fun n c => n * 10 + (c.toNat - 48)) 0

/-- Parse one JSON value: a quoted string or a (possibly negative) integer
literal. -/
def parseValue (cs : List Char) : Option (JsonVal × List Char) :=
  match skipWs cs with
  | [] => none
  | c :: rest =>
    if c = quoteChar then
      match scanStr rest with
      | some (s, r) => some (.str s, r)
      | none => none
    else if c = '-' then
      match rest.takeWhile isDigit, rest.dropWhile isDigit with
      | [], _ => none
      | ds, r => some (.num (-(Int.ofNat (digitsToNat ds))), r)
    else if isDigit c then
      some (.num (Int.ofNat (digitsToNat (c :: rest.takeWhile isDigit))),
        rest.dropWhile isDigit)
    else none

/-- Parse the comma-separated members of a JSON object, fuelled by the input
length. -/
def parseMembers : Nat → List Char → Option (List (List Char × JsonVal) × List Char)
  | 0, _ => none
  | fuel + 1, cs =>
    match skipWs cs with
    | [] => none
    | c :: rest =>
      if c = quoteChar then
        match scanStr rest with
        | none => none
        | some (key, r1) =>
          match skipWs r1 with
          | ':' :: r3 =>
            match parseValue r3 with
            | none => none
            | some (v, r4) =>
              match skipWs r4 with
              | ',' :: r6 =>
                match parseMembers fuel r6 with
                | some (ms, r7) => some ((key, v) :: ms, r7)
                | none => none
              | r5 => some ([(key, v)], r5)
          | _ => none
      else none

/-- Parse a flat JSON object (string keys, string or integer values) spanning
the whole input; anything else is malformed. -/
def parseObj (cs : List Char) : Option (List (List Char × JsonVal)) :=
  match skipWs cs with
  | [] => none
  | c :: rest =>
    if c = lbrace then
      match skipWs rest with
      | [] => none
      | c2 :: r2 =>
        if c2 = rbrace then
          if (skipWs r2).isEmpty then some [] else none
        else
          match parseMembers (rest.length + 1) rest with
          | none => none
          | some (ms, r3) =>
            match skipWs r3 with
            | [] => none
            | c4 :: r4 =>
              if c4 = rbrace ∧ (skipWs r4).isEmpty then some ms else none
    else none

/-- The characters of the `exp` claim key. -/
def expKey : List Char := ['e', 'x', 'p']

/-- Modelled from the spec: `OidcIdentityToken.IsExpired` is not under `src/`
(only its test is); per the spec the token is split into dot-separated
segments (exactly three required), the middle segment is base64url-decoded
without padding, the result is parsed as a JSON object whose `exp` field must
be numeric, and the claimed epoch seconds are compared against the current
time; every malformed shape is treated as expired. The JSON model covers flat
objects of string/integer values (any other payload counts as malformed,
hence expired, which is the fail-safe side). -/
def IsExpired (t : String) (now : Int) : Bool :=
  match splitOnChar '.' t.data with
  | [_, payload, _] =>
    match decodeB64 payload with
    | none => true
    | some bs =>
      match parseObj (bs.map Char.ofNat) with
      | none => true
      | some ms =>
        match ms.lookup expKey with
        | some (.num e) => decide (e ≤ now)
        | _ => true
  | _ => true

/-- `OidcIdentityToken.String`: the raw token, unchanged. -/
def tokenString (t : String) : String := t

/-- A concrete JSON payload claiming expiration at epoch second `e`. -/
def expPayload (e : Int) : String := "\x7b\"exp\":" ++ toString e ++ "\x7d"

/-- A concrete well-formed token claiming expiration at epoch second `e`:
header and signature segments are opaque, the payload is the base64url
encoding of `expPayload e`. -/
def mkExpTok (e : Int) : String :=
  "mock." ++ String.mk (B64.encode ((expPayload e).data.map Char.toNat)) ++ ".mock"

/-- A concrete token whose payload is valid base64url and valid JSON but
whose `exp` claim is the string `"invalid"`. -/
def invalidExpTok : String :=
  "mock." ++
    String.mk (B64.encode (("\x7b\"exp\":\"invalid\"\x7d").data.map Char.toNat)) ++
    ".mock"

end Credentials

end AwsRunas

/-- C2: `chainLoader.Config` and `chainLoader.Credentials` never return an
error for any profile and any list of loaders; a loader whose lookup fails is
skipped and iteration continues with the remaining loaders in the given order,
while a successful lookup is merged field-wise (`MergeIn`) into the
accumulated config. -/
theorem C2_chain_loader_never_fails :
    (∀ (loaders : List AwsRunas.SdkConfig.Loader) (p : String),
      (AwsRunas.SdkConfig.chainLoaderConfig loaders p).isOk = true ∧
      (AwsRunas.SdkConfig.chainLoaderCredentials loaders p).isOk = true) ∧
    (∀ (ldr : AwsRunas.SdkConfig.Loader) (rest : List AwsRunas.SdkConfig.Loader)
      (p : String) (e : String),
      ldr.ConfigFn p = .error e →
        AwsRunas.SdkConfig.chainLoaderConfig (ldr :: rest) p =
          AwsRunas.SdkConfig.chainLoaderConfig rest p) ∧
    (∀ (ldr : AwsRunas.SdkConfig.Loader) (rest : List AwsRunas.SdkConfig.Loader)
      (p : String) (e : String),
      ldr.CredentialsFn p = .error e →
        AwsRunas.SdkConfig.chainLoaderCredentials (ldr :: rest) p =
          AwsRunas.SdkConfig.chainLoaderCredentials rest p) ∧
    (∀ (ldr : AwsRunas.SdkConfig.Loader) (rest : List AwsRunas.SdkConfig.Loader)
      (p : String) (cf : AwsRunas.SdkConfig.AwsConfig) (c : AwsRunas.SdkConfig.AwsConfig),
      ldr.ConfigFn p = .ok cf →
        AwsRunas.SdkConfig.chainConfigLoop (ldr :: rest) p c =
          AwsRunas.SdkConfig.chainConfigLoop rest p (c.MergeIn cf)) ∧
    (∀ (ldr : AwsRunas.SdkConfig.Loader) (rest : List AwsRunas.SdkConfig.Loader)
      (p : String) (cr : AwsRunas.SdkConfig.AwsCredentials)
      (c : AwsRunas.SdkConfig.AwsCredentials),
      ldr.CredentialsFn p = .ok cr →
        AwsRunas.SdkConfig.chainCredentialsLoop (ldr :: rest) p c =
          AwsRunas.SdkConfig.chainCredentialsLoop rest p (c.MergeIn cr)) := by
  refine ⟨fun loaders p => ⟨rfl, rfl⟩, ?_, ?_, ?_, ?_⟩
  · intro ldr rest p e h
    simp [AwsRunas.SdkConfig.chainLoaderConfig,
      AwsRunas.SdkConfig.chainConfigLoop_error_skip ldr rest p {} e h]
  · intro ldr rest p e h
    simp [AwsRunas.SdkConfig.chainLoaderCredentials,
      AwsRunas.SdkConfig.chainCredentialsLoop_error_skip ldr rest p {} e h]
  · intro ldr rest p cf c h
    exact AwsRunas.SdkConfig.chainConfigLoop_ok_merge ldr rest p c cf h
  · intro ldr rest p cr c h
    exact AwsRunas.SdkConfig.chainCredentialsLoop_ok_merge ldr rest p c cr h

/-- C2 witness: the theorem applied to a concrete always-failing loader and a
concrete always-succeeding loader. -/
theorem C2_chain_loader_never_fails_witness :
    (AwsRunas.SdkConfig.chainLoaderConfig [] "dev").isOk = true ∧
    AwsRunas.SdkConfig.chainLoaderConfig
        [⟨fun _ => .error "boom", fun _ => .error "boom"⟩] "dev" =
      AwsRunas.SdkConfig.chainLoaderConfig [] "dev" ∧
    AwsRunas.SdkConfig.chainConfigLoop
        [⟨fun _ => .ok { Region := "us-east-1" }, fun _ => .ok {}⟩] "dev" {} =
      AwsRunas.SdkConfig.chainConfigLoop [] "dev"
        (AwsRunas.SdkConfig.AwsConfig.MergeIn {} { Region := "us-east-1" }) := by
  refine ⟨(C2_chain_loader_never_fails.1 [] "dev").1, ?_, ?_⟩
  · exact C2_chain_loader_never_fails.2.1
      ⟨fun _ => .error "boom", fun _ => .error "boom"⟩ [] "dev" "boom" rfl
  · exact C2_chain_loader_never_fails.2.2.2.1
      ⟨fun _ => .ok { Region := "us-east-1" }, fun _ => .ok {}⟩ [] "dev"
      { Region := "us-east-1" } {} rfl

/-- C1: evaluating `SharedCfgConfigHandler.Config` at the failing input — an
explicitly selected profile `"dev"` (set through the config's `Name`, which
`Config` installs via the `Profile` method) with `AWS_PROFILE=prod` in the
environment. Because `Config` calls `readEnv` after installing the explicit
selection, the environment-derived profile `"prod"` overwrites it: the loaded
section and the returned config's `Name` are those of `"prod"`, not of the
explicitly selected `"dev"`, refuting the claim (and the doc comment of
`Profile`, which promises that explicit selection overrides environment
variables). -/
theorem C1_env_profile_overrides_explicit_selection :
    (AwsRunas.LibConfig.Config AwsRunas.LibConfig.NewSharedCfgConfigHandler
        (some { Name := "dev" }) { AWS_PROFILE := some "prod" }
        AwsRunas.LibConfig.demoFs).2.2.1 = none ∧
    ((AwsRunas.LibConfig.Config AwsRunas.LibConfig.NewSharedCfgConfigHandler
        (some { Name := "dev" }) { AWS_PROFILE := some "prod" }
        AwsRunas.LibConfig.demoFs).2.1.map (fun c => c.Name)) = some "prod" ∧
    ((AwsRunas.LibConfig.Config AwsRunas.LibConfig.NewSharedCfgConfigHandler
        (some { Name := "dev" }) { AWS_PROFILE := some "prod" }
        AwsRunas.LibConfig.demoFs).2.1.map (fun c => c.Region)) = some "eu-west-1" ∧
    (AwsRunas.LibConfig.Config AwsRunas.LibConfig.NewSharedCfgConfigHandler
        (some { Name := "dev" }) { AWS_PROFILE := some "prod" }
        AwsRunas.LibConfig.demoFs).1.profile = "prod" ∧
    "prod" ≠ "dev" := by
  refine ⟨rfl, rfl, rfl, rfl, by decide⟩

/-- C3: `validateDuration` returns the default duration when the request is
zero, the minimum when the request is positive but below the minimum, the
maximum when the request exceeds the maximum, and the request itself
otherwise; the concrete conjuncts evaluate the test's four inputs (0, 72h,
5min, 2h in seconds). -/
theorem C3_validate_duration_clamps :
    (∀ d : Nat,
      (d = 0 → AwsRunas.Lib.validateDuration d = AwsRunas.Lib.ASSUME_ROLE_DEFAULT_DURATION) ∧
      (0 < d → d < AwsRunas.Lib.ASSUME_ROLE_MIN_DURATION →
        AwsRunas.Lib.validateDuration d = AwsRunas.Lib.ASSUME_ROLE_MIN_DURATION) ∧
      (d > AwsRunas.Lib.ASSUME_ROLE_MAX_DURATION →
        AwsRunas.Lib.validateDuration d = AwsRunas.Lib.ASSUME_ROLE_MAX_DURATION) ∧
      (AwsRunas.Lib.ASSUME_ROLE_MIN_DURATION ≤ d → d ≤ AwsRunas.Lib.ASSUME_ROLE_MAX_DURATION →
        AwsRunas.Lib.validateDuration d = d)) ∧
    AwsRunas.Lib.validateDuration 0 = 3600 ∧
    AwsRunas.Lib.validateDuration (72 * 3600) = 43200 ∧
    AwsRunas.Lib.validateDuration (5 * 60) = 900 ∧
    AwsRunas.Lib.validateDuration (2 * 3600) = 2 * 3600 := by
  refine ⟨fun d => ⟨?_, ?_, ?_, ?_⟩, by decide, by decide, by decide, by decide⟩ <;>
    · intros
      simp only [AwsRunas.Lib.validateDuration, AwsRunas.Lib.ASSUME_ROLE_MIN_DURATION,
        AwsRunas.Lib.ASSUME_ROLE_MAX_DURATION, AwsRunas.Lib.ASSUME_ROLE_DEFAULT_DURATION] at *
      split <;> try split <;> try split
      all_goals omega

/-- C3 witness: the theorem applied at the concrete in-range request 1000,
discharging both range hypotheses. -/
theorem C3_validate_duration_clamps_witness :
    AwsRunas.Lib.validateDuration 1000 = 1000 :=
  (C3_validate_duration_clamps.1 1000).2.2.2 (by decide) (by decide)

/-- C4: a token that is malformed in any way — a segment count other than
three, a payload that does not base64url-decode, a decoded payload that is
not a JSON object, or an `exp` claim that is absent or non-numeric — is
expired; and a well-formed token with a numeric `exp` claim is not expired
exactly when the claimed epoch second is in the future. The concrete
conjuncts evaluate the test's tokens, including `exp` one hour ahead (not
expired) and one hour behind (expired). -/
theorem C4_is_expired_fail_safe :
    (∀ (s : String) (now : Int),
      (AwsRunas.Credentials.splitOnChar '.' s.data).length ≠ 3 →
        AwsRunas.Credentials.IsExpired s now = true) ∧
    (∀ (s : String) (now : Int) (seg1 payload seg3 : List Char),
      AwsRunas.Credentials.splitOnChar '.' s.data = [seg1, payload, seg3] →
      AwsRunas.Credentials.decodeB64 payload = none →
        AwsRunas.Credentials.IsExpired s now = true) ∧
    (∀ (s : String) (now : Int) (seg1 payload seg3 : List Char) (bs : List Nat),
      AwsRunas.Credentials.splitOnChar '.' s.data = [seg1, payload, seg3] →
      AwsRunas.Credentials.decodeB64 payload = some bs →
      AwsRunas.Credentials.parseObj (bs.map Char.ofNat) = none →
        AwsRunas.Credentials.IsExpired s now = true) ∧
    (∀ (s : String) (now : Int) (seg1 payload seg3 : List Char) (bs : List Nat)
      (ms : List (List Char × AwsRunas.Credentials.JsonVal)),
      AwsRunas.Credentials.splitOnChar '.' s.data = [seg1, payload, seg3] →
      AwsRunas.Credentials.decodeB64 payload = some bs →
      AwsRunas.Credentials.parseObj (bs.map Char.ofNat) = some ms →
      (∀ e : Int, ms.lookup AwsRunas.Credentials.expKey ≠ some (.num e)) →
        AwsRunas.Credentials.IsExpired s now = true) ∧
    (∀ (s : String) (now : Int) (seg1 payload seg3 : List Char) (bs : List Nat)
      (ms : List (List Char × AwsRunas.Credentials.JsonVal)) (e : Int),
      AwsRunas.Credentials.splitOnChar '.' s.data = [seg1, payload, seg3] →
      AwsRunas.Credentials.decodeB64 payload = some bs →
      AwsRunas.Credentials.parseObj (bs.map Char.ofNat) = some ms →
      ms.lookup AwsRunas.Credentials.expKey = some (.num e) →
        (AwsRunas.Credentials.IsExpired s now = false ↔ now < e)) ∧
    AwsRunas.Credentials.IsExpired "mock.payload" 0 = true ∧
    AwsRunas.Credentials.IsExpired "mock.pay|load.mock" 0 = true ∧
    AwsRunas.Credentials.IsExpired "mock.payload.mock" 0 = true ∧
    AwsRunas.Credentials.IsExpired AwsRunas.Credentials.invalidExpTok 0 = true ∧
    AwsRunas.Credentials.IsExpired (AwsRunas.Credentials.mkExpTok 1700000000)
      (1700000000 - 3600) = false ∧
    AwsRunas.Credentials.IsExpired (AwsRunas.Credentials.mkExpTok 1700000000)
      (1700000000 + 3600) = true := by
  refine ⟨?_, ?_, ?_, ?_, ?_, by decide, by decide, by decide, by decide, by decide, by decide⟩
  · intro s now h
    rcases hs : AwsRunas.Credentials.splitOnChar '.' s.data with
      _ | ⟨a, _ | ⟨b, _ | ⟨c, _ | ⟨d, tl⟩⟩⟩⟩ <;>
      simp [AwsRunas.Credentials.IsExpired, hs] at h ⊢
  · intro s now seg1 payload seg3 hs hd
    simp [AwsRunas.Credentials.IsExpired, hs, hd]
  · intro s now seg1 payload seg3 bs hs hd hp
    simp [AwsRunas.Credentials.IsExpired, hs, hd, hp]
  · intro s now seg1 payload seg3 bs ms hs hd hp hl
    simp only [AwsRunas.Credentials.IsExpired, hs, hd, hp]
  · intro s now seg1 payload seg3 bs ms e hs hd hp hl
    simp [AwsRunas.Credentials.IsExpired, hs, hd, hp, hl]

/-- C4 witness: the fail-safe conjuncts applied at the test's concrete tokens
(wrong segment count, undecodable payload) and the comparison conjunct
applied at the concrete well-formed token claiming expiration at epoch second
1700000000, queried one hour earlier, all hypotheses discharged by
evaluation. -/
theorem C4_is_expired_fail_safe_witness :
    AwsRunas.Credentials.IsExpired "mock.payload" 7 = true ∧
    AwsRunas.Credentials.IsExpired "mock.pay|load.mock" 7 = true ∧
    (AwsRunas.Credentials.IsExpired (AwsRunas.Credentials.mkExpTok 1700000000)
        1699996400 = false ↔ (1699996400 : Int) < 1700000000) := by
  refine ⟨?_, ?_, ?_⟩
  · exact C4_is_expired_fail_safe.1 "mock.payload" 7 (by decide)
  · exact C4_is_expired_fail_safe.2.1 "mock.pay|load.mock" 7
      "mock".data "pay|load".data "mock".data (by decide) (by decide)
  · exact C4_is_expired_fail_safe.2.2.2.2.1 (AwsRunas.Credentials.mkExpTok 1700000000)
      1699996400 "mock".data "eyJleHAiOjE3MDAwMDAwMDB9".data "mock".data
      ((AwsRunas.Credentials.expPayload 1700000000).data.map Char.toNat)
      [(AwsRunas.Credentials.expKey, AwsRunas.Credentials.JsonVal.num 1700000000)]
      1700000000 (by decide) (by decide) (by decide) (by decide)

/-- C5: every `PkceCode` produced by a successful generation from at least 32
random bytes has a verifier of at least 43 characters, a challenge equal to
the unpadded base64url encoding of the SHA-256 hash of the verifier's bytes,
and no padding character in the challenge. -/
theorem C5_pkce_code_shape :
    ∀ rnd : List Nat, 32 ≤ rnd.length →
      43 ≤ (AwsRunas.External.newPkceCode rnd).verifier.length ∧
      (AwsRunas.External.newPkceCode rnd).challenge.data =
        AwsRunas.B64.encode (AwsRunas.Sha256.sha256
          (AwsRunas.External.strBytes (AwsRunas.External.newPkceCode rnd).verifier)) ∧
      '=' ∉ (AwsRunas.External.newPkceCode rnd).challenge.data := by
  intro rnd hlen
  refine ⟨?_, rfl, ?_⟩
  · show 43 ≤ (String.mk (AwsRunas.B64.encode rnd)).length
    simp only [String.length, AwsRunas.B64.encode_length]
    omega
  · intro hmem
    exact AwsRunas.B64.encode_ne_pad _ (AwsRunas.Sha256.sha256_bytes_lt _) '=' hmem rfl

/-- C5 witness: the theorem applied to 32 concrete zero bytes of randomness,
discharging the length hypothesis. -/
theorem C5_pkce_code_shape_witness :
    43 ≤ (AwsRunas.External.newPkceCode (List.replicate 32 0)).verifier.length ∧
    (AwsRunas.External.newPkceCode (List.replicate 32 0)).challenge.data =
      AwsRunas.B64.encode (AwsRunas.Sha256.sha256
        (AwsRunas.External.strBytes
          (AwsRunas.External.newPkceCode (List.replicate 32 0)).verifier)) ∧
    '=' ∉ (AwsRunas.External.newPkceCode (List.replicate 32 0)).challenge.data :=
  C5_pkce_code_shape (List.replicate 32 0) (by simp)

/-- C6: constructing the assume-role provider with a nil profile fails loudly
with the distinguished panic error for every options value, while every
non-nil profile (including with nil options) constructs a provider whose
profile is the given one. -/
theorem C6_new_assume_role_provider_nil_profile :
    (∀ opts, AwsRunas.Lib.NewAssumeRoleProvider none opts = .error "panic: nil profile") ∧
    (∀ (p : AwsRunas.Lib.AWSProfile) (opts : Option AwsRunas.Lib.CachedCredentialsProviderOptions),
      ∃ prov : AwsRunas.Lib.AssumeRoleProvider,
        AwsRunas.Lib.NewAssumeRoleProvider (some p) opts = .ok prov ∧ prov.profile = p) :=
  ⟨fun _ => rfl, fun p opts => ⟨{ profile := p, opts := opts.getD {} }, rfl, rfl⟩⟩

/-- C7: when no interface holds the well-known metadata address,
`removeAddress` returns the interface-not-found error and issues no command,
for every command runner; and any command `removeAddress` ever issues is the
`ip address del` command against the interface found to hold that address. -/
theorem C7_remove_address_requires_holder :
    (∀ (run : List String → Except String Unit) (ifaces : List AwsRunas.Metadata.NetInterface),
      (∀ i ∈ ifaces, AwsRunas.Metadata.DefaultEc2ImdsAddr ∉ i.addrs) →
        (∃ e, (AwsRunas.Metadata.removeAddress run ifaces).1 = .error e) ∧
        (AwsRunas.Metadata.removeAddress run ifaces).2 = []) ∧
    (∀ (run : List String → Except String Unit) (ifaces : List AwsRunas.Metadata.NetInterface)
      (cmd : List String), cmd ∈ (AwsRunas.Metadata.removeAddress run ifaces).2 →
        ∃ iface : AwsRunas.Metadata.NetInterface,
          AwsRunas.Metadata.findInterfaceByAddress ifaces AwsRunas.Metadata.DefaultEc2ImdsAddr =
            .ok iface ∧
          AwsRunas.Metadata.DefaultEc2ImdsAddr ∈ iface.addrs ∧
          cmd = ["ip", "address", "del", AwsRunas.Metadata.DefaultEc2ImdsCidr, "dev",
            iface.Name]) := by
  constructor
  · intro run ifaces h
    have hf : ifaces.find?
        (fun i => decide (AwsRunas.Metadata.DefaultEc2ImdsAddr ∈ i.addrs)) = none := by
      rw [List.find?_eq_none]
      intro i hi
      simpa using h i hi
    simp [AwsRunas.Metadata.removeAddress, AwsRunas.Metadata.findInterfaceByAddress, hf]
  · intro run ifaces cmd hcmd
    unfold AwsRunas.Metadata.removeAddress at hcmd
    unfold AwsRunas.Metadata.findInterfaceByAddress at hcmd ⊢
    cases hfind : ifaces.find?
        (fun i => i.addrs.contains AwsRunas.Metadata.DefaultEc2ImdsAddr) with
    | none => rw [hfind] at hcmd; simp at hcmd
    | some iface =>
      rw [hfind] at hcmd
      simp at hcmd
      refine ⟨iface, rfl, ?_, hcmd⟩
      have := List.find?_some hfind
      simpa using this

/-- C7 witness: the theorem applied to a concrete system state with one
interface not holding the metadata address, discharging the no-holder
hypothesis, plus the command-shape part applied vacuously-satisfiably at a
state with a holder. -/
theorem C7_remove_address_requires_holder_witness :
    ((∃ e, (AwsRunas.Metadata.removeAddress (fun _ => .ok ())
        [⟨"eth0", ["10.0.0.5"]⟩]).1 = .error e) ∧
      (AwsRunas.Metadata.removeAddress (fun _ => .ok ()) [⟨"eth0", ["10.0.0.5"]⟩]).2 = []) ∧
    (∃ iface : AwsRunas.Metadata.NetInterface,
      AwsRunas.Metadata.findInterfaceByAddress
          [AwsRunas.Metadata.NetInterface.mk "lo" ["169.254.169.254"]]
          AwsRunas.Metadata.DefaultEc2ImdsAddr = .ok iface ∧
      AwsRunas.Metadata.DefaultEc2ImdsAddr ∈ iface.addrs ∧
      ["ip", "address", "del", AwsRunas.Metadata.DefaultEc2ImdsCidr, "dev", "lo"] =
        ["ip", "address", "del", AwsRunas.Metadata.DefaultEc2ImdsCidr, "dev", iface.Name]) := by
  constructor
  · exact C7_remove_address_requires_holder.1 (fun _ => .ok ()) [⟨"eth0", ["10.0.0.5"]⟩]
      (by decide)
  · have := C7_remove_address_requires_holder.2 (fun _ => .ok ())
      [AwsRunas.Metadata.NetInterface.mk "lo" ["169.254.169.254"]]
      ["ip", "address", "del", AwsRunas.Metadata.DefaultEc2ImdsCidr, "dev", "lo"]
      (by decide)
    obtain ⟨iface, h1, h2, h3⟩ := this
    exact ⟨iface, h1, h2, h3⟩

/-- C9: calling `SharedCfgConfigHandler.Config` with a nil config returns a
nil error, performs no environment read and no configuration-file load, and
leaves the handler's state unchanged, for every handler state, environment
and file system. -/
theorem C9_config_nil_noop :
    ∀ (h : AwsRunas.LibConfig.Handler) (env : AwsRunas.LibConfig.Env)
      (fs : String → Option AwsRunas.LibConfig.IniFile),
      AwsRunas.LibConfig.Config h none env fs = (h, none, none, []) :=
  fun _ _ _ => rfl

/-- C10: a chain loader over an empty loader list returns, for every profile
name, a zero-valued `AwsConfig` with no error from `Config`, and a zero-valued
`AwsCredentials` with no error from `Credentials`. -/
theorem C10_empty_chain_zero_config :
    ∀ p : String,
      AwsRunas.SdkConfig.chainLoaderConfig [] p =
        .ok { Region := "", RoleArn := "", SrcProfile := "", MfaSerial := "",
              ExternalId := "", SamlUrl := "" } ∧
      AwsRunas.SdkConfig.chainLoaderCredentials [] p =
        .ok { AccessKeyId := "", SecretKey := "", SessionToken := "", Expiration := 0 } :=
  fun _ => ⟨rfl, rfl⟩
